import Mathlib

set_option maxHeartbeats 1000000

/-!
Shallow embedding of the core of `pg_log.c` (the pg_log PostgreSQL
extension): the tail-sampling and line-realignment engine
(`pg_read_internal`, `pg_log_internal`, `pg_log_refresh_internal`) and the
background-worker loop (`pg_log_main`).

Modelling conventions:

* A PostgreSQL `text` value (`struct varlena`) is modelled by `Varlena`:
  `data` holds the payload bytes (what `VARDATA` points at), and `junk`
  stands for the bytes of adjacent heap memory located immediately after
  the payload.  The `junk` field is needed because the C scan loops run
  while `char_count < VARSIZE(data)` and `VARSIZE` counts the 4-byte
  varlena header as well, so the loops dereference `VARDATA + char_count`
  for `char_count` up to `payload length + 3`, i.e. four positions past
  the end of the payload.  Theorems quantify over `junk` or pick explicit
  4-byte values for it.
* `elog(ERROR, ...)` aborts the enclosing function; it is modelled by an
  `Option Nat` error component carrying the line number the message
  reports.  C machine integers are modelled as `Nat`/`Int` (no quantity in
  this program approaches an overflow boundary), and the C `double`
  arithmetic on `pg_log_fraction` is modelled over `ℚ`.
* Since `pg_log_fraction` enters the scanning code only through the test
  `pg_log_fraction != 1`, the scan functions take that test's outcome as a
  boolean `frac_is_one`; the byte-range arithmetic that does use the value
  of the fraction is modelled separately by `pg_read_offset` and
  `pg_read_length`.
-/

/-- PG_LOG_MAX_LINE_SIZE, pg_log.c line 49: the capacity of the
fixed-size line buffers `buf_v2`. -/
def PG_LOG_MAX_LINE_SIZE : Nat := 32768

/-- VARHDRSZ: the size of the 4-byte varlena header (postgres.h). -/
def VARHDRSZ : Nat := 4

/-- Model of a `text *` buffer as returned by `pg_read_file`: `data` holds
the payload bytes; `junk` stands for the bytes of adjacent memory placed
right after the payload, observable because the scan loops run up to
`VARSIZE` (header size included) instead of the payload length. -/
structure Varlena where
  data : List Char
  junk : List Char

/-- VARSIZE(PTR): the total size of a varlena, 4-byte header included,
as documented in the comment block of pg_log.c lines 102-126. -/
def VARSIZE (v : Varlena) : Nat := VARHDRSZ + v.data.length

/-- logdata_has_more, pg_log.c lines 306-310: the loop guard compares the
running character index (`g_logdata.char_count`, an index into `VARDATA`)
against `VARSIZE`, not against the payload length. -/
def logdata_has_more (char_count : Nat) (v : Varlena) : Bool :=
  char_count < VARSIZE v

/-- The sequence of bytes a scan loop guarded by `logdata_has_more`
actually traverses when started at `char_count = 0`: the bytes at
`VARDATA + 0 ..= VARDATA + VARSIZE - 1`, i.e. the payload followed by the
first `VARHDRSZ` bytes of adjacent memory. -/
def logdata_scanned (v : Varlena) : List Char :=
  (v.data ++ v.junk).take (VARSIZE v)

/-- Scan state of the checking loop in `pg_read_internal`, pg_log.c lines
483-496: `i` is `g_logdata.i`, `line_count` and `max_line_size` the
equally-named fields, and `fnp` the function-local variable
`first_newline_position`, initialised to 0 at line 451. -/
structure DiagState where
  i : Nat
  line_count : Nat
  max_line_size : Nat
  fnp : Nat

/-- One iteration of the checking loop of `pg_read_internal` (lines
483-496) followed by the `logdata_next()` of the for-statement: on a
newline the local `first_newline_position` is set to `g_logdata.i` if it
is still 0, the line count is bumped, `max_line_size` is updated, and `i`
is reset to 0 before the trailing increment. -/
def pg_read_step (s : DiagState) (c : Char) : DiagState :=
  if c = '\n' then
    { i := 0 + 1,
      line_count := s.line_count + 1,
      max_line_size := if s.max_line_size < s.i then s.i else s.max_line_size,
      fnp := if s.fnp = 0 then s.i else s.fnp }
  else
    { s with i := s.i + 1 }

/-- The whole checking loop of `pg_read_internal` over the scanned bytes. -/
def pg_read_scan (l : List Char) (s : DiagState) : DiagState :=
  l.foldl pg_read_step s

/-- State set up by `logdata_start` (lines 279-288) together with the
local `int first_newline_position = 0` of line 451. -/
def pg_read_start : DiagState := ⟨0, 0, 0, 0⟩

/-- The scan part of `pg_read_internal` (pg_log.c lines 437-511): runs the
checking loop over the fetched bytes and computes the stored
`g_logdata.first_newline_position` (lines 501-504): 0 when
`pg_log_fraction == 1`, otherwise the local `first_newline_position`.
`v.data` stands for the bytes `pg_read_file` returned for the computed
offset and length; `frac_is_one` is the outcome of the test
`pg_log_fraction == 1`. -/
def pg_read_internal (v : Varlena) (frac_is_one : Bool) : DiagState × Nat :=
  let s := pg_read_scan (logdata_scanned v) pg_read_start
  (s, if frac_is_one then 0 else s.fnp)

/-- logdata_start_from_newline, pg_log.c lines 290-304: the character
index at which the emission loops start reading:
`first_newline_position + 1` when `pg_log_fraction != 1`, else 0. -/
def logdata_start_from_newline (fnp : Nat) (frac_is_one : Bool) : Nat :=
  if frac_is_one then 0 else fnp + 1

/-- State of the emission loops of `pg_log_internal` (lines 568-596) and
`pg_log_refresh_internal` (lines 643-673).  `gi` is `g_logdata.i`.
`line` holds the bytes written into the fixed buffer `buf_v2` since the
start of the current line; the function-local index `i` always equals
`line.length` (it is reset to -1 on a newline and incremented back to 0
together with the reset of `line`).  `oob` records whether some write
`buf_v2[i] = c` has used an index `i ≥ PG_LOG_MAX_LINE_SIZE`, i.e. has
written past the last valid index of the 32768-byte buffer.  `out`
collects the emitted `(line number, text)` pairs in order; the text is the
accumulated line without the newline, since `buf_v2[i] = '\0'` overwrites
the just-written newline before the line is handed to the sink. -/
structure EmitState where
  gi : Nat
  line_count : Nat
  line : List Char
  oob : Bool
  out : List (Nat × List Char)

/-- Emission state right after `logdata_start_from_newline` and `i = 0`. -/
def emit_start : EmitState := ⟨0, 0, [], false, []⟩

/-- The write `buf_v2[i] = c` performed at the top of each emission-loop
iteration (pg_log.c lines 576 and 646): the byte is appended at index
`i = line.length`, and `oob` records whether that index is past the end
of the 32768-byte buffer. -/
def emit_write (s : EmitState) (c : Char) : EmitState :=
  { s with line := s.line ++ [c],
           oob := s.oob || decide (PG_LOG_MAX_LINE_SIZE ≤ s.line.length) }

/-- State change of a non-newline iteration after the write: only the
trailing `logdata_next()` increments of the for-statement. -/
def emit_next (s : EmitState) (c : Char) : EmitState :=
  { emit_write s c with gi := s.gi + 1 }

/-- State change of a newline iteration of `pg_log_internal` (lines
583-595) after the write: the tuple `(logdata_get_line_count(), text)` is
emitted BEFORE `logdata_incr_line_count()`, so the attached number is the
line count before the increment; then `logdata_reset_index()`, `i = -1`,
and the trailing `logdata_next()`/`i++`. -/
def pg_log_nl (s : EmitState) (c : Char) : EmitState :=
  { gi := 0 + 1,
    line_count := s.line_count + 1,
    line := [],
    oob := (emit_write s c).oob,
    out := s.out ++ [(s.line_count, s.line)] }

/-- State change of a newline iteration of `pg_log_refresh_internal`
(lines 653-672) after the write: here `logdata_incr_line_count()` runs
BEFORE the inserted id is read from `logdata_get_line_count()`, so the
attached number is the line count after the increment. -/
def pg_log_refresh_nl (s : EmitState) (c : Char) : EmitState :=
  { pg_log_nl s c with out := s.out ++ [(s.line_count + 1, s.line)] }

/-- The emission loop of `pg_log_internal` (lines 568-596).  Per
iteration, in program order: the write `buf_v2[i] = c`, then the length
check `logdata_get_index() > PG_LOG_MAX_LINE_SIZE - 1` which raises
`elog(ERROR, "pg_log: log line %d larger than %d",
logdata_get_line_count() + 1, ...)`, then the newline handling.  The
`Option Nat` result is the reported line number of a raised error, `none`
when the loop completed. -/
def pg_log_loop : List Char → EmitState → EmitState × Option Nat
  | [], s => (s, none)
  | c :: rest, s =>
    if PG_LOG_MAX_LINE_SIZE - 1 < s.gi then
      (emit_write s c, some (s.line_count + 1))
    else if c = '\n' then
      pg_log_loop rest (pg_log_nl s c)
    else
      pg_log_loop rest (emit_next s c)

/-- The emission loop of `pg_log_refresh_internal` (lines 643-673); the
`INSERT` into the `pglog` table is modelled by the `out` list (the table
was truncated at the start of the call, so `out` is the table's final
content). -/
def pg_log_refresh_loop : List Char → EmitState → EmitState × Option Nat
  | [], s => (s, none)
  | c :: rest, s =>
    if PG_LOG_MAX_LINE_SIZE - 1 < s.gi then
      (emit_write s c, some (s.line_count + 1))
    else if c = '\n' then
      pg_log_refresh_loop rest (pg_log_refresh_nl s c)
    else
      pg_log_refresh_loop rest (emit_next s c)

/-- The process-global state that persists across calls: `g_result`
(pg_log.c line 81) and the stored `g_logdata.first_newline_position`
(initialised to -1 by `logdata_start` and overwritten by every
`pg_read_internal` before any use). -/
structure GState where
  g_result : Varlena
  first_newline_position : Int

/-- The effect of `pg_read_internal` on the globals (lines 501-507): it
stores the computed alignment position and sets `g_result = result`. -/
def pg_read_internal_g (st : GState) (fetched : Varlena) (frac_is_one : Bool) :
    GState :=
  { st with g_result := fetched,
            first_newline_position := ((pg_read_internal fetched frac_is_one).2 : Int) }

/-- pg_log_internal (pg_log.c lines 520-600): calls `pg_read_internal` on
the currently active log file first (line 546), then runs the emission
loop over `g_result` starting from the index computed by
`logdata_start_from_newline`. -/
def pg_log_call (st : GState) (fetched : Varlena) (frac_is_one : Bool) :
    GState × (EmitState × Option Nat) :=
  let st1 := pg_read_internal_g st fetched frac_is_one
  (st1,
   pg_log_loop
     ((logdata_scanned st1.g_result).drop
       (logdata_start_from_newline st1.first_newline_position.toNat frac_is_one))
     emit_start)

/-- pg_log_refresh_internal (pg_log.c lines 611-683): calls
`pg_read_internal` first (line 626), truncates the `pglog` table, then
runs the refresh emission loop over `g_result`. -/
def pg_log_refresh_call (st : GState) (fetched : Varlena) (frac_is_one : Bool) :
    GState × (EmitState × Option Nat) :=
  let st1 := pg_read_internal_g st fetched frac_is_one
  (st1,
   pg_log_refresh_loop
     ((logdata_scanned st1.g_result).drop
       (logdata_start_from_newline st1.first_newline_position.toNat frac_is_one))
     emit_start)

/-- One call of `pg_log` as a function of the bytes fetched in that call,
started from the process-initial global state (`first_newline_position =
-1` as set by `logdata_start`). -/
def pg_log_internal (v : Varlena) (frac_is_one : Bool) : EmitState × Option Nat :=
  (pg_log_call ⟨⟨[], []⟩, -1⟩ v frac_is_one).2

/-- One call of `pg_log_refresh` as a function of the bytes fetched in
that call, started from the process-initial global state. -/
def pg_log_refresh_internal (v : Varlena) (frac_is_one : Bool) :
    EmitState × Option Nat :=
  (pg_log_refresh_call ⟨⟨[], []⟩, -1⟩ v frac_is_one).2

/-- Outcome of running the `pg_log_main` loop on a finite schedule of
wake-ups: `running` means the schedule was exhausted with the loop still
alive (the worker is back at its `WaitLatch`). -/
inductive MainOutcome where
  | running
  | exitSigterm
  | exitPostmasterDeath
  | exitError (lineno : Nat)
deriving DecidableEq

/-- One wake-up of the worker loop: the `got_sigterm` flag observed at the
top of the loop, whether `WaitLatch` reported postmaster death, the
`got_sighup` flag, and the log bytes this cycle's `pg_read_internal`
fetches. -/
structure CycleInput where
  sigterm : Bool
  pmDeath : Bool
  sighup : Bool
  v : Varlena
  frac_is_one : Bool

/-- pg_log_main (pg_log.c lines 685-778): the worker loop.  `while
(!got_sigterm)`; inside, `WaitLatch` (postmaster death exits the process),
a SIGHUP only reloads the configuration, and then the cycle
`pg_log_refresh_internal` runs inside a transaction.  There is no error
handler around the cycle inside `pg_log_main`, so an `elog(ERROR, ...)`
raised by the cycle propagates out of the loop to the background-worker
scaffolding, which terminates the process: modelled as `exitError`. -/
def pg_log_main : List CycleInput → MainOutcome
  | [] => .running
  | inp :: rest =>
    if inp.sigterm then .exitSigterm
    else if inp.pmDeath then .exitPostmasterDeath
    else
      match (pg_log_refresh_internal inp.v inp.frac_is_one).2 with
      | some n => .exitError n
      | none => pg_log_main rest

/-- The byte-range arithmetic of `pg_read_internal` (pg_log.c line 474):
`offset = stat_buf.st_size * (1 - pg_log_fraction)`, with the `double`
arithmetic modelled over `ℚ`; the conversion of the nonnegative product to
`int64` truncates toward zero, i.e. takes the floor. -/
def pg_read_offset (sizeBytes : Nat) (fraction : ℚ) : Int :=
  ⌊(sizeBytes : ℚ) * (1 - fraction)⌋

/-- The byte-range arithmetic of `pg_read_internal` (pg_log.c line 475):
`length = stat_buf.st_size * pg_log_fraction`, modelled like
`pg_read_offset`. -/
def pg_read_length (sizeBytes : Nat) (fraction : ℚ) : Int :=
  ⌊(sizeBytes : ℚ) * fraction⌋

/-- An ascending run of `k` consecutive numbers starting at `a`; used to
state what the emitted line numbers look like. -/
def numberSeq : Nat → Nat → List Nat
  | _, 0 => []
  | a, k + 1 => a :: numberSeq (a + 1) k

/- Concrete inputs used by the counterexample and evaluation theorems. -/

/-- A buffer that starts with a newline and contains a second one; the
4 bytes after it contain no newline. -/
def v_c1 : Varlena := ⟨['\n', 'A', '\n', 'B'], ['W', 'X', 'Y', 'Z']⟩

/-- A buffer whose first newline is at a positive index. -/
def v_c1w : Varlena := ⟨['X', 'Y', '\n', 'C', 'D'], ['W', 'X', 'Y', 'Z']⟩

/-- The 13-byte scenario buffer of the specification, with a newline among
the 4 bytes of adjacent memory. -/
def v_c2 : Varlena :=
  ⟨['A', 'A', 'A', 'A', '\n', 'B', 'B', 'B', 'B', '\n', 'C', 'C', 'C'],
   ['W', '\n', 'Y', 'Z']⟩

/-- A newline-free 2-byte buffer with newlines among the 4 bytes of
adjacent memory. -/
def v_c6 : Varlena := ⟨['A', 'B'], ['C', '\n', 'D', '\n']⟩

/-- A one-line buffer used to exhibit push-mode numbering. -/
def v_c7 : Varlena := ⟨['A', '\n'], ['W', 'X', 'Y', 'Z']⟩

/-- A zero-length buffer with a newline among the 4 bytes of adjacent
memory. -/
def v_c8 : Varlena := ⟨[], ['a', '\n', 'b', 'c']⟩

/-- A 2-byte buffer used to exhibit the loop bound. -/
def v_c9 : Varlena := ⟨['A', 'B'], ['W', 'X', 'Y', 'Z']⟩

/-- A buffer whose first line is longer than `PG_LOG_MAX_LINE_SIZE`:
32769 bytes of payload with no newline (the adjacent bytes are newline
free as well). -/
def v_long : Varlena := ⟨List.replicate 32769 'a', List.replicate 4 'a'⟩

/-- A worker wake-up with no pending signals whose cycle fetches
`v_long`. -/
def bad_cycle_input : CycleInput := ⟨false, false, false, v_long, true⟩

/- ------------------------------------------------------------------ -/
/- Projection helper lemmas. -/
/- ------------------------------------------------------------------ -/

@[simp] theorem emit_write_gi (s : EmitState) (c : Char) :
    (emit_write s c).gi = s.gi := rfl

@[simp] theorem emit_write_line_count (s : EmitState) (c : Char) :
    (emit_write s c).line_count = s.line_count := rfl

@[simp] theorem emit_write_line (s : EmitState) (c : Char) :
    (emit_write s c).line = s.line ++ [c] := rfl

@[simp] theorem emit_write_out (s : EmitState) (c : Char) :
    (emit_write s c).out = s.out := rfl

@[simp] theorem emit_next_gi (s : EmitState) (c : Char) :
    (emit_next s c).gi = s.gi + 1 := rfl

@[simp] theorem emit_next_line_count (s : EmitState) (c : Char) :
    (emit_next s c).line_count = s.line_count := rfl

@[simp] theorem emit_next_line (s : EmitState) (c : Char) :
    (emit_next s c).line = s.line ++ [c] := rfl

@[simp] theorem emit_next_out (s : EmitState) (c : Char) :
    (emit_next s c).out = s.out := rfl

@[simp] theorem pg_log_nl_gi (s : EmitState) (c : Char) :
    (pg_log_nl s c).gi = 0 + 1 := rfl

@[simp] theorem pg_log_nl_line_count (s : EmitState) (c : Char) :
    (pg_log_nl s c).line_count = s.line_count + 1 := rfl

@[simp] theorem pg_log_nl_line (s : EmitState) (c : Char) :
    (pg_log_nl s c).line = [] := rfl

@[simp] theorem pg_log_nl_out (s : EmitState) (c : Char) :
    (pg_log_nl s c).out = s.out ++ [(s.line_count, s.line)] := rfl

@[simp] theorem pg_log_refresh_nl_gi (s : EmitState) (c : Char) :
    (pg_log_refresh_nl s c).gi = 0 + 1 := rfl

@[simp] theorem pg_log_refresh_nl_line_count (s : EmitState) (c : Char) :
    (pg_log_refresh_nl s c).line_count = s.line_count + 1 := rfl

@[simp] theorem pg_log_refresh_nl_line (s : EmitState) (c : Char) :
    (pg_log_refresh_nl s c).line = [] := rfl

@[simp] theorem pg_log_refresh_nl_out (s : EmitState) (c : Char) :
    (pg_log_refresh_nl s c).out = s.out ++ [(s.line_count + 1, s.line)] := rfl

/- ------------------------------------------------------------------ -/
/- Lemmas about the checking scan of pg_read_internal. -/
/- ------------------------------------------------------------------ -/

theorem pg_read_scan_append (l1 l2 : List Char) (s : DiagState) :
    pg_read_scan (l1 ++ l2) s = pg_read_scan l2 (pg_read_scan l1 s) := by
  simp [pg_read_scan, List.foldl_append]

/-- Scanning a newline-free run leaves `first_newline_position` untouched
and advances the in-line index by the run's length. -/
theorem pg_read_scan_no_newline :
    ∀ (l : List Char), '\n' ∉ l → ∀ s : DiagState,
      (pg_read_scan l s).fnp = s.fnp ∧ (pg_read_scan l s).i = s.i + l.length := by
  intro l
  induction l with
  | nil => intro _ s; simp [pg_read_scan]
  | cons c rest ih =>
    intro h s
    have hc : ¬ c = '\n' := fun e => h (by simp [e])
    have hr : '\n' ∉ rest := fun hm => h (by simp [hm])
    have hstep : pg_read_scan (c :: rest) s = pg_read_scan rest { s with i := s.i + 1 } := by
      simp [pg_read_scan, pg_read_step, hc]
    rw [hstep]
    obtain ⟨h1, h2⟩ := ih hr { s with i := s.i + 1 }
    refine ⟨h1, ?_⟩
    rw [h2]
    simp
    omega

/-- Once the local `first_newline_position` is nonzero it is frozen: the
`if (first_newline_position == 0)` guard never fires again. -/
theorem pg_read_scan_fnp_frozen :
    ∀ (l : List Char) (s : DiagState), s.fnp ≠ 0 →
      (pg_read_scan l s).fnp = s.fnp := by
  intro l
  induction l with
  | nil => intro s _; simp [pg_read_scan]
  | cons c rest ih =>
    intro s h
    by_cases hc : c = '\n'
    · have hstep : pg_read_scan (c :: rest) s = pg_read_scan rest (pg_read_step s c) := rfl
      rw [hstep, ih _ (by simp [pg_read_step, hc, h])]
      simp [pg_read_step, hc, h]
    · have hstep : pg_read_scan (c :: rest) s = pg_read_scan rest { s with i := s.i + 1 } := by
        simp [pg_read_scan, pg_read_step, hc]
      rw [hstep]
      exact ih _ h

/-- When the scan, started with `first_newline_position = 0`, crosses a
newline-free run and then hits a newline at a moment where `g_logdata.i`
is nonzero, the recorded position is that value of `i` and stays so. -/
theorem pg_read_scan_hit (pre post : List Char) (s : DiagState)
    (hpre : '\n' ∉ pre) (h0 : s.fnp = 0) (hi : 0 < s.i + pre.length) :
    (pg_read_scan (pre ++ '\n' :: post) s).fnp = s.i + pre.length := by
  rw [pg_read_scan_append]
  obtain ⟨h1, h2⟩ := pg_read_scan_no_newline pre hpre s
  have hfnp1 : (pg_read_scan pre s).fnp = 0 := by rw [h1, h0]
  have hstep : pg_read_scan ('\n' :: post) (pg_read_scan pre s) =
      pg_read_scan post (pg_read_step (pg_read_scan pre s) '\n') := rfl
  have hstepfnp : (pg_read_step (pg_read_scan pre s) '\n').fnp =
      (pg_read_scan pre s).i := by
    simp [pg_read_step, hfnp1]
  rw [hstep, pg_read_scan_fnp_frozen post _ (by rw [hstepfnp, h2]; omega),
      hstepfnp, h2]

/-- Every list containing an element splits at its first occurrence. -/
theorem mem_split_first {a : Char} :
    ∀ (l : List Char), a ∈ l → ∃ s t, l = s ++ a :: t ∧ a ∉ s := by
  intro l
  induction l with
  | nil => intro h; cases h
  | cons b rest ih =>
    intro h
    by_cases hb : b = a
    · exact ⟨[], rest, by simp [hb], by simp⟩
    · have hmem : a ∈ rest := by
        rcases List.mem_cons.mp h with e | hs
        · exact absurd e.symm hb
        · exact hs
      obtain ⟨s, t, he, hn⟩ := ih hmem
      refine ⟨b :: s, t, by rw [he]; rfl, ?_⟩
      intro hm
      rcases List.mem_cons.mp hm with e | hs
      · exact hb e.symm
      · exact hn hs

theorem getElem?_append_cons (s t : List Char) (a : Char) :
    (s ++ a :: t)[s.length]? = some a := by
  induction s with
  | nil => simp
  | cons b rest ih => simpa using ih

/- ------------------------------------------------------------------ -/
/- Lemmas about the emission loops. -/
/- ------------------------------------------------------------------ -/

/-- Pull-mode emission: the line count never decreases and the emitted
numbers are the consecutive run starting at the entry line count (the
number is read BEFORE the increment). -/
theorem pg_log_loop_numbers :
    ∀ (l : List Char) (s : EmitState),
      s.line_count ≤ (pg_log_loop l s).1.line_count ∧
      ((pg_log_loop l s).1.out).map Prod.fst =
        s.out.map Prod.fst ++
          numberSeq s.line_count ((pg_log_loop l s).1.line_count - s.line_count) := by
  intro l
  induction l with
  | nil =>
    intro s
    refine ⟨Nat.le_refl _, ?_⟩
    simp [pg_log_loop, numberSeq]
  | cons c rest ih =>
    intro s
    by_cases hgi : PG_LOG_MAX_LINE_SIZE - 1 < s.gi
    · refine ⟨?_, ?_⟩
      · simp [pg_log_loop, hgi]
      · simp [pg_log_loop, hgi, numberSeq]
    · by_cases hc : c = '\n'
      · have hred : pg_log_loop (c :: rest) s = pg_log_loop rest (pg_log_nl s c) := by
          simp [pg_log_loop, hgi, hc]
        obtain ⟨m, e⟩ := ih (pg_log_nl s c)
        rw [hred]
        simp only [pg_log_nl_line_count] at m
        refine ⟨by omega, ?_⟩
        rw [e]
        simp only [pg_log_nl_out, pg_log_nl_line_count, List.map_append,
          List.append_assoc]
        congr 1
        have h1 : (pg_log_loop rest (pg_log_nl s c)).1.line_count - s.line_count =
            ((pg_log_loop rest (pg_log_nl s c)).1.line_count - (s.line_count + 1)) + 1 := by
          omega
        rw [h1]
        simp [numberSeq]
      · have hred : pg_log_loop (c :: rest) s = pg_log_loop rest (emit_next s c) := by
          simp [pg_log_loop, hgi, hc]
        obtain ⟨m, e⟩ := ih (emit_next s c)
        rw [hred]
        simp only [emit_next_line_count] at m
        refine ⟨m, ?_⟩
        rw [e]
        simp

/-- Push-mode emission: the emitted numbers are the consecutive run
starting one above the entry line count (the number is read AFTER the
increment). -/
theorem pg_log_refresh_loop_numbers :
    ∀ (l : List Char) (s : EmitState),
      s.line_count ≤ (pg_log_refresh_loop l s).1.line_count ∧
      ((pg_log_refresh_loop l s).1.out).map Prod.fst =
        s.out.map Prod.fst ++
          numberSeq (s.line_count + 1)
            ((pg_log_refresh_loop l s).1.line_count - s.line_count) := by
  intro l
  induction l with
  | nil =>
    intro s
    refine ⟨Nat.le_refl _, ?_⟩
    simp [pg_log_refresh_loop, numberSeq]
  | cons c rest ih =>
    intro s
    by_cases hgi : PG_LOG_MAX_LINE_SIZE - 1 < s.gi
    · refine ⟨?_, ?_⟩
      · simp [pg_log_refresh_loop, hgi]
      · simp [pg_log_refresh_loop, hgi, numberSeq]
    · by_cases hc : c = '\n'
      · have hred : pg_log_refresh_loop (c :: rest) s =
            pg_log_refresh_loop rest (pg_log_refresh_nl s c) := by
          simp [pg_log_refresh_loop, hgi, hc]
        obtain ⟨m, e⟩ := ih (pg_log_refresh_nl s c)
        rw [hred]
        simp only [pg_log_refresh_nl_line_count] at m
        refine ⟨by omega, ?_⟩
        rw [e]
        simp only [pg_log_refresh_nl_out, pg_log_refresh_nl_line_count,
          List.map_append, List.append_assoc]
        congr 1
        have h1 : (pg_log_refresh_loop rest (pg_log_refresh_nl s c)).1.line_count
              - s.line_count =
            ((pg_log_refresh_loop rest (pg_log_refresh_nl s c)).1.line_count
              - (s.line_count + 1)) + 1 := by
          omega
        rw [h1]
        simp [numberSeq]
      · have hred : pg_log_refresh_loop (c :: rest) s =
            pg_log_refresh_loop rest (emit_next s c) := by
          simp [pg_log_refresh_loop, hgi, hc]
        obtain ⟨m, e⟩ := ih (emit_next s c)
        rw [hred]
        simp only [emit_next_line_count] at m
        refine ⟨m, ?_⟩
        rw [e]
        simp

/-- Running the pull-mode emission loop into a newline-free run that
overflows the line buffer: the loop raises the line-too-long error with
the 1-based number of the current line, but only after a write at index
`PG_LOG_MAX_LINE_SIZE`, one past the end of `buf_v2`, has happened (on the
first line of a cycle the buffer index and `g_logdata.i` coincide). -/
theorem pg_log_loop_longline :
    ∀ (n : Nat) (s : EmitState),
      s.line.length = s.gi → s.gi ≤ PG_LOG_MAX_LINE_SIZE →
      PG_LOG_MAX_LINE_SIZE < s.gi + n →
      (pg_log_loop (List.replicate n 'a') s).2 = some (s.line_count + 1) ∧
      (pg_log_loop (List.replicate n 'a') s).1.oob = true := by
  intro n
  induction n with
  | zero =>
    intro s _ h2 h3
    exact absurd h3 (by omega)
  | succ n ih =>
    intro s h1 h2 h3
    rw [List.replicate_succ]
    by_cases hgi : PG_LOG_MAX_LINE_SIZE - 1 < s.gi
    · have hM : s.gi = PG_LOG_MAX_LINE_SIZE := by omega
      have hred : pg_log_loop ('a' :: List.replicate n 'a') s =
          (emit_write s 'a', some (s.line_count + 1)) := by
        simp [pg_log_loop, hgi]
      rw [hred]
      refine ⟨rfl, ?_⟩
      show (emit_write s 'a').oob = true
      simp [emit_write, h1, hM]
    · have hMpos : 0 < PG_LOG_MAX_LINE_SIZE := by decide
      have hred : pg_log_loop ('a' :: List.replicate n 'a') s =
          pg_log_loop (List.replicate n 'a') (emit_next s 'a') := by
        simp [pg_log_loop, hgi]
      rw [hred]
      have r := ih (emit_next s 'a')
        (by simp [h1])
        (by simp only [emit_next_gi]; omega)
        (by simp only [emit_next_gi]; omega)
      simpa using r

/-- Push-mode twin of `pg_log_loop_longline`. -/
theorem pg_log_refresh_loop_longline :
    ∀ (n : Nat) (s : EmitState),
      s.line.length = s.gi → s.gi ≤ PG_LOG_MAX_LINE_SIZE →
      PG_LOG_MAX_LINE_SIZE < s.gi + n →
      (pg_log_refresh_loop (List.replicate n 'a') s).2 = some (s.line_count + 1) ∧
      (pg_log_refresh_loop (List.replicate n 'a') s).1.oob = true := by
  intro n
  induction n with
  | zero =>
    intro s _ h2 h3
    exact absurd h3 (by omega)
  | succ n ih =>
    intro s h1 h2 h3
    rw [List.replicate_succ]
    by_cases hgi : PG_LOG_MAX_LINE_SIZE - 1 < s.gi
    · have hM : s.gi = PG_LOG_MAX_LINE_SIZE := by omega
      have hred : pg_log_refresh_loop ('a' :: List.replicate n 'a') s =
          (emit_write s 'a', some (s.line_count + 1)) := by
        simp [pg_log_refresh_loop, hgi]
      rw [hred]
      refine ⟨rfl, ?_⟩
      show (emit_write s 'a').oob = true
      simp [emit_write, h1, hM]
    · have hMpos : 0 < PG_LOG_MAX_LINE_SIZE := by decide
      have hred : pg_log_refresh_loop ('a' :: List.replicate n 'a') s =
          pg_log_refresh_loop (List.replicate n 'a') (emit_next s 'a') := by
        simp [pg_log_refresh_loop, hgi]
      rw [hred]
      have r := ih (emit_next s 'a')
        (by simp [h1])
        (by simp only [emit_next_gi]; omega)
        (by simp only [emit_next_gi]; omega)
      simpa using r

/- ------------------------------------------------------------------ -/
/- Unfolding equations for the call-level functions. -/
/- ------------------------------------------------------------------ -/

theorem pg_log_internal_eq (v : Varlena) (fio : Bool) :
    pg_log_internal v fio =
      pg_log_loop ((logdata_scanned v).drop
        (logdata_start_from_newline (pg_read_internal v fio).2 fio)) emit_start := rfl

theorem pg_log_refresh_internal_eq (v : Varlena) (fio : Bool) :
    pg_log_refresh_internal v fio =
      pg_log_refresh_loop ((logdata_scanned v).drop
        (logdata_start_from_newline (pg_read_internal v fio).2 fio)) emit_start := rfl

/-- The bytes the loops scan for `v_long`: 32769 payload bytes plus the
4 overread bytes, all equal to `a`. -/
theorem v_long_data : v_long.data = List.replicate 32769 'a' := rfl

theorem v_long_junk : v_long.junk = List.replicate 4 'a' := rfl

theorem logdata_scanned_eq (v : Varlena) :
    logdata_scanned v = (v.data ++ v.junk).take (VARHDRSZ + v.data.length) := rfl

theorem logdata_start_one (fnp : Nat) :
    logdata_start_from_newline fnp true = 0 := rfl

theorem scanned_v_long : logdata_scanned v_long = List.replicate 32773 'a' := by
  rw [logdata_scanned_eq, v_long_data, v_long_junk, ← List.replicate_add,
      List.length_replicate,
      (by norm_num : (32769 + 4 : Nat) = 32773),
      (by norm_num [VARHDRSZ] : VARHDRSZ + 32769 = 32773)]
  exact List.take_of_length_le
    (by simp only [List.length_replicate]; exact Nat.le_refl _)

/-- Evaluating the push-mode cycle on `v_long`: the cycle raises the
line-too-long error for line 1, after an out-of-bounds write. -/
theorem refresh_v_long_error :
    (pg_log_refresh_internal v_long true).2 = some 1 ∧
    (pg_log_refresh_internal v_long true).1.oob = true := by
  rw [pg_log_refresh_internal_eq]
  rw [logdata_start_one, List.drop_zero, scanned_v_long]
  exact pg_log_refresh_loop_longline 32773 emit_start rfl
    (by show (0 : Nat) ≤ PG_LOG_MAX_LINE_SIZE; exact Nat.zero_le _)
    (by show PG_LOG_MAX_LINE_SIZE < 0 + 32773; norm_num [PG_LOG_MAX_LINE_SIZE])

/- ------------------------------------------------------------------ -/
/- Claim theorems. -/
/- ------------------------------------------------------------------ -/

/-- Claim C9 (code bug): the loop guard `logdata_has_more` compares the
character index against `VARSIZE`, which includes the 4-byte varlena
header, so for the 2-byte buffer `v_c9` the guard still admits index 2
(the first position past the payload) and the scanned byte sequence
contains the 4 bytes of adjacent memory: the scans read past the end of
the fetched data, contrary to the claim. -/
theorem c9_scan_bounds_bug :
    logdata_has_more v_c9.data.length v_c9 = true ∧
    v_c9.data.length = 2 ∧
    logdata_scanned v_c9 = ['A', 'B', 'W', 'X', 'Y', 'Z'] := by
  decide

/-- Claim C8 (code bug): a fetched buffer of length 0 does not yield zero
lines: because the scan runs up to `VARSIZE`, the 4 bytes of adjacent
memory are scanned, and when they contain a newline (here `a\nbc`) the
call emits one garbage line `a` (numbered 0) for an empty buffer. -/
theorem c8_empty_buffer_bug :
    (pg_log_internal v_c8 true).1.out = [(0, ['a'])] ∧
    (pg_log_internal v_c8 true).2 = none := by
  decide

/-- Claim C2 (code bug): for the 13-byte content `AAAA\nBBBB\nCCC` with
`fraction == 1`, the emitted lines are not exactly `AAAA`, `BBBB`: when
the 4 over-read bytes of adjacent memory contain a newline (here `W\nYZ`),
a third line `CCCW` is emitted, containing the supposedly-discarded
trailing bytes `CCC` plus a byte that is not part of the buffer at all, so
concatenating the emitted lines does not reproduce the aligned
sub-buffer. -/
theorem c2_roundtrip_overread_bug :
    ((pg_log_internal v_c2 true).1.out).map Prod.snd =
      [['A', 'A', 'A', 'A'], ['B', 'B', 'B', 'B'], ['C', 'C', 'C', 'W']] ∧
    (pg_log_internal v_c2 true).2 = none := by
  decide

/-- Claim C6 (code bug): a fetched buffer containing no newline (here
`AB`) scanned with `fraction < 1` does not produce zero lines: the scan
reads the 4 bytes of adjacent memory (here `C\nD\n`), records an alignment
position inside them, and emits one garbage line `D` built entirely from
bytes outside the buffer. -/
theorem c6_no_newline_bug :
    (pg_log_internal v_c6 false).1.out = [(0, ['D'])] ∧
    (pg_log_internal v_c6 false).2 = none := by
  decide

/-- Claim C10 (confirmed): one call of `pg_log` or `pg_log_refresh` first
re-runs `pg_read_internal`, which overwrites `g_result` and the stored
alignment position before the emission loop reads them; consequently the
emitted lines (and the error outcome) are the same whatever buffer an
earlier call left in the process-global state, and the state afterwards
holds the buffer fetched by this call. -/
theorem c10_fresh_fetch_per_call :
    ∀ (st st' : GState) (v : Varlena) (fio : Bool),
      (pg_log_call st v fio).2 = (pg_log_call st' v fio).2 ∧
      (pg_log_refresh_call st v fio).2 = (pg_log_refresh_call st' v fio).2 ∧
      (pg_log_call st v fio).1.g_result = v ∧
      (pg_log_refresh_call st v fio).1.g_result = v := by
  intro st st' v fio
  exact ⟨rfl, rfl, rfl, rfl⟩

/-- Claim C1, amended (corrected): with `fraction < 1`, over the byte
sequence the scan actually traverses (payload plus overread, see C9), if
it contains a newline at all then the byte at the recorded
`first_newline_position` is a newline, line production starts exactly one
byte after it, and whenever the scanned sequence does not START with a
newline the recorded position is the index of the first newline.  (When
the sequence starts with a newline the recorded position is the index of
the second newline, or 0 if there is none: the claim's identification of
the recorded position with the first newline's index fails there.) -/
theorem c1_alignment_offset_amended (v : Varlena)
    (hnl : '\n' ∈ logdata_scanned v) :
    (logdata_scanned v)[(pg_read_internal v false).2]? = some '\n' ∧
    logdata_start_from_newline (pg_read_internal v false).2 false =
      (pg_read_internal v false).2 + 1 ∧
    (∀ pre post, logdata_scanned v = pre ++ '\n' :: post → '\n' ∉ pre →
       pre ≠ [] → (pg_read_internal v false).2 = pre.length) := by
  have hval : (pg_read_internal v false).2 =
      (pg_read_scan (logdata_scanned v) pg_read_start).fnp := rfl
  refine ⟨?_, rfl, ?_⟩
  · obtain ⟨pre, post, hdec, hpre⟩ := mem_split_first _ hnl
    cases pre with
    | nil =>
      simp only [List.nil_append] at hdec
      rw [hval, hdec]
      have hstep : pg_read_scan ('\n' :: post) pg_read_start =
          pg_read_scan post ⟨1, 1, 0, 0⟩ := rfl
      rw [hstep]
      by_cases hp : '\n' ∈ post
      · obtain ⟨p2, t2, hd2, hp2⟩ := mem_split_first _ hp
        rw [hd2]
        have hfnp : (pg_read_scan (p2 ++ '\n' :: t2) (⟨1, 1, 0, 0⟩ : DiagState)).fnp =
            1 + p2.length :=
          pg_read_scan_hit p2 t2 ⟨1, 1, 0, 0⟩ hp2 rfl
            (by show 0 < 1 + p2.length; omega)
        rw [hfnp, Nat.add_comm, List.getElem?_cons_succ]
        exact getElem?_append_cons p2 t2 '\n'
      · have hfnp : (pg_read_scan post (⟨1, 1, 0, 0⟩ : DiagState)).fnp = 0 :=
          (pg_read_scan_no_newline post hp ⟨1, 1, 0, 0⟩).1
        rw [hfnp]
        simp
    | cons b pre' =>
      rw [hval, hdec]
      have hfnp := pg_read_scan_hit (b :: pre') post pg_read_start hpre rfl
        (by show 0 < 0 + (b :: pre').length; simp)
      rw [hfnp]
      show ((b :: pre') ++ '\n' :: post)[0 + (b :: pre').length]? = some '\n'
      rw [Nat.zero_add]
      exact getElem?_append_cons (b :: pre') post '\n'
  · intro pre post hdec hpre hne
    rw [hval, hdec]
    have hi : 0 < pg_read_start.i + pre.length := by
      show 0 < 0 + pre.length
      have := List.length_pos.mpr hne
      omega
    rw [pg_read_scan_hit pre post pg_read_start hpre rfl hi]
    show 0 + pre.length = pre.length
    omega

/-- Claim C1 witness: for the buffer `XY\nCD` (first newline at index 2,
adjacent bytes newline-free), the amended alignment properties hold. -/
theorem c1_alignment_offset_witness :
    '\n' ∈ logdata_scanned v_c1w ∧
    ((logdata_scanned v_c1w)[(pg_read_internal v_c1w false).2]? = some '\n' ∧
     logdata_start_from_newline (pg_read_internal v_c1w false).2 false =
       (pg_read_internal v_c1w false).2 + 1 ∧
     (∀ pre post, logdata_scanned v_c1w = pre ++ '\n' :: post → '\n' ∉ pre →
        pre ≠ [] → (pg_read_internal v_c1w false).2 = pre.length)) :=
  ⟨by decide, c1_alignment_offset_amended v_c1w (by decide)⟩

/-- Claim C1 counterexample: for the buffer `\nA\nB` scanned with
`fraction < 1`, the first newline is at index 0, yet the recorded
`first_newline_position` is 2 (the second newline): the recorded position
is NOT the byte index of the first newline in the buffer, so the claim as
stated is false. -/
theorem c1_alignment_offset_cex :
    (logdata_scanned v_c1)[0]? = some '\n' ∧
    (pg_read_internal v_c1 false).2 = 2 ∧
    (pg_read_internal v_c1 false).2 ≠ 0 := by
  decide

/-- Claim C7, amended (corrected): within one call, pull mode
(`pg_log`) numbers the emitted lines 0, 1, 2, ... in emission order, while
push mode (`pg_log_refresh`) numbers them 1, 2, 3, ... (the refresh loop
increments the line count before reading the id it inserts); in both modes
numbering restarts for each call. -/
theorem c7_line_numbering_amended (v : Varlena) (fio : Bool) :
    ((pg_log_internal v fio).1.out).map Prod.fst =
      numberSeq 0 ((pg_log_internal v fio).1.line_count) ∧
    ((pg_log_refresh_internal v fio).1.out).map Prod.fst =
      numberSeq 1 ((pg_log_refresh_internal v fio).1.line_count) := by
  constructor
  · rw [pg_log_internal_eq]
    have h := (pg_log_loop_numbers ((logdata_scanned v).drop
      (logdata_start_from_newline (pg_read_internal v fio).2 fio)) emit_start).2
    simpa [emit_start] using h
  · rw [pg_log_refresh_internal_eq]
    have h := (pg_log_refresh_loop_numbers ((logdata_scanned v).drop
      (logdata_start_from_newline (pg_read_internal v fio).2 fio)) emit_start).2
    simpa [emit_start] using h

/-- Claim C7 counterexample: for the one-line buffer `A\n` in push mode,
the emitted numbers are `[1]`, not the claimed 0-based run `[0]`: push
mode does not start numbering at 0. -/
theorem c7_line_numbering_cex :
    ¬ (((pg_log_refresh_internal v_c7 true).1.out).map Prod.fst =
        numberSeq 0 ((pg_log_refresh_internal v_c7 true).1.line_count)) := by
  decide

/-- Claim C3 (code bug): on a first line longer than
`PG_LOG_MAX_LINE_SIZE` (here 32769 bytes with no newline), the pull-mode
scan does raise the line-too-long error with the correct 1-based line
number 1, but only AFTER performing a write at buffer index
`PG_LOG_MAX_LINE_SIZE` = 32768, one byte past the end of the 32768-byte
`buf_v2`: the error does not precede the out-of-bounds write. -/
theorem c3_linetoolong_oob_write_bug :
    (pg_log_internal v_long true).2 = some 1 ∧
    (pg_log_internal v_long true).1.oob = true := by
  rw [pg_log_internal_eq]
  rw [logdata_start_one, List.drop_zero, scanned_v_long]
  exact pg_log_loop_longline 32773 emit_start rfl
    (by show (0 : Nat) ≤ PG_LOG_MAX_LINE_SIZE; exact Nat.zero_le _)
    (by show PG_LOG_MAX_LINE_SIZE < 0 + 32773; norm_num [PG_LOG_MAX_LINE_SIZE])

/-- A wake-up with clear flags whose cycle raises an error makes the
worker loop stop with `exitError`. -/
theorem pg_log_main_cons_error (inp : CycleInput) (rest : List CycleInput)
    (n : Nat) (h1 : inp.sigterm = false) (h2 : inp.pmDeath = false)
    (hn : (pg_log_refresh_internal inp.v inp.frac_is_one).2 = some n) :
    pg_log_main (inp :: rest) = MainOutcome.exitError n := by
  simp [pg_log_main, h1, h2, hn]

/-- Claim C4 counterexample: one scheduled wake-up with no pending signals
whose cycle hits a line-too-long error makes the worker loop terminate
with `exitError` instead of resuming: a cycle error DOES terminate the
scheduler worker, so the claim as stated is false. -/
theorem c4_cycle_error_cex :
    pg_log_main [bad_cycle_input] = MainOutcome.exitError 1 ∧
    pg_log_main [bad_cycle_input] ≠ MainOutcome.running := by
  have h1 : pg_log_main [bad_cycle_input] = MainOutcome.exitError 1 :=
    pg_log_main_cons_error bad_cycle_input [] 1 rfl rfl refresh_v_long_error.1
  exact ⟨h1, by rw [h1]; simp⟩

/-- Claim C4, amended (corrected): `pg_log_main` installs no error handler
around the cycle, so an `elog(ERROR, ...)` raised during a cycle (for
example the line-too-long error) propagates out of the loop and terminates
the worker process (which the postmaster then restarts per
`bgw_restart_time`); only an error-free cycle returns the loop to its
wait state. -/
theorem c4_cycle_error_amended (inp : CycleInput) (rest : List CycleInput)
    (h1 : inp.sigterm = false) (h2 : inp.pmDeath = false) :
    (∀ n, (pg_log_refresh_internal inp.v inp.frac_is_one).2 = some n →
       pg_log_main (inp :: rest) = MainOutcome.exitError n) ∧
    ((pg_log_refresh_internal inp.v inp.frac_is_one).2 = none →
       pg_log_main (inp :: rest) = pg_log_main rest) := by
  constructor
  · intro n hn
    simp [pg_log_main, h1, h2, hn]
  · intro hn
    simp [pg_log_main, h1, h2, hn]

/-- Claim C4 witness: the amended statement applied to the erroring
wake-up `bad_cycle_input`. -/
theorem c4_cycle_error_witness :
    bad_cycle_input.sigterm = false ∧ bad_cycle_input.pmDeath = false ∧
    pg_log_main [bad_cycle_input] = MainOutcome.exitError 1 :=
  ⟨rfl, rfl,
    (c4_cycle_error_amended bad_cycle_input [] rfl rfl).1 1 refresh_v_long_error.1⟩

/-- Claim C5 (confirmed): the fetch step computes
`offset = floor(sizeBytes * (1 - fraction))` and
`length = floor(sizeBytes * fraction)`, and for `fraction == 1` this gives
`offset = 0` and `length = sizeBytes` (the whole file).  The C `double`
arithmetic is modelled as exact arithmetic over `ℚ`; the conversion of the
nonnegative products to `int64` truncates toward zero, which is the
floor. -/
theorem c5_fetch_range_math (sizeBytes : Nat) (fraction : ℚ)
    (h0 : 0 < fraction) (h1 : fraction ≤ 1) :
    pg_read_offset sizeBytes fraction = ⌊(sizeBytes : ℚ) * (1 - fraction)⌋ ∧
    pg_read_length sizeBytes fraction = ⌊(sizeBytes : ℚ) * fraction⌋ ∧
    (fraction = 1 →
      pg_read_offset sizeBytes fraction = 0 ∧
      pg_read_length sizeBytes fraction = (sizeBytes : Int)) := by
  refine ⟨rfl, rfl, ?_⟩
  intro hf
  subst hf
  constructor
  · simp [pg_read_offset]
  · simp [pg_read_length]

/-- Claim C5 witness: the range arithmetic at `sizeBytes = 1000`,
`fraction = 1`. -/
theorem c5_fetch_range_math_witness :
    (0 < (1 : ℚ)) ∧ ((1 : ℚ) ≤ 1) ∧
    (pg_read_offset 1000 1 = 0 ∧ pg_read_length 1000 1 = 1000) :=
  ⟨by norm_num, le_refl 1,
    (c5_fetch_range_math 1000 1 (by norm_num) (le_refl 1)).2.2 rfl⟩
